import Mathlib

/-!
Verification of the fly-camera controller (`FlyControl`).

The development is a shallow embedding of `src/unnamed/part_000` (the
complete revision of the controller, the one the specification follows;
`src/camera/fly_control.go` is an earlier snapshot of the same code).
Scalars are embedded as exact rationals (`ℚ`) in place of `float32`.

The only piece of the repository the controller calls that is not under
`src/` is the `math32` vector library (`Vector3`, `ApplyAxisAngle`,
`Normalize`).  Those two operations are modelled from the spec, see
`rotAA` and the `reo*` definitions below; everything else is translated
directly from the Go source.

Angles: the Go code passes an angle in radians to `ApplyAxisAngle`,
which uses only its cosine and sine.  To stay in exact arithmetic, every
rotation in the embedding carries the bookkeeping angle `delta` (used by
the constraint logic exactly as the code does) together with the pair
`(c, s)` standing for `(cos delta, sin delta)`; geometric theorems add
the hypothesis `c ^ 2 + s ^ 2 = 1`.  Where the code rotates by
`-delta`, the embedding uses the pair `(c, -s)`, since
`cos (-x) = cos x` and `sin (-x) = -sin x`.
-/

/-- 3-component vector over exact rationals (math32.Vector3, with ℚ for
float32). -/
structure V3 where
  x : ℚ
  y : ℚ
  z : ℚ
deriving DecidableEq, Repr

namespace V3

def add (a b : V3) : V3 := ⟨a.x + b.x, a.y + b.y, a.z + b.z⟩

def sub (a b : V3) : V3 := ⟨a.x - b.x, a.y - b.y, a.z - b.z⟩

def smul (r : ℚ) (a : V3) : V3 := ⟨r * a.x, r * a.y, r * a.z⟩

/-- Dot product. -/
def dot (a b : V3) : ℚ := a.x * b.x + a.y * b.y + a.z * b.z

/-- Cross product (right-handed, as in math32). -/
def cross (a b : V3) : V3 :=
  ⟨a.y * b.z - a.z * b.y, a.z * b.x - a.x * b.z, a.x * b.y - a.y * b.x⟩

/-- Squared Euclidean norm. -/
def normSq (a : V3) : ℚ := dot a a

end V3

instance : Add V3 := ⟨V3.add⟩

instance : Sub V3 := ⟨V3.sub⟩

instance : SMul ℚ V3 := ⟨V3.smul⟩

@[ext] theorem V3.ext {a b : V3} (hx : a.x = b.x) (hy : a.y = b.y) (hz : a.z = b.z) :
    a = b := by
  cases a; cases b; simp_all

@[simp] theorem V3.add_x (a b : V3) : (a + b).x = a.x + b.x := rfl

@[simp] theorem V3.add_y (a b : V3) : (a + b).y = a.y + b.y := rfl

@[simp] theorem V3.add_z (a b : V3) : (a + b).z = a.z + b.z := rfl

@[simp] theorem V3.sub_x (a b : V3) : (a - b).x = a.x - b.x := rfl

@[simp] theorem V3.sub_y (a b : V3) : (a - b).y = a.y - b.y := rfl

@[simp] theorem V3.sub_z (a b : V3) : (a - b).z = a.z - b.z := rfl

@[simp] theorem V3.smul_x (r : ℚ) (a : V3) : (r • a).x = r * a.x := rfl

@[simp] theorem V3.smul_y (r : ℚ) (a : V3) : (r • a).y = r * a.y := rfl

@[simp] theorem V3.smul_z (r : ℚ) (a : V3) : (r • a).z = r * a.z := rfl

@[simp] theorem V3.cross_x (a b : V3) : (V3.cross a b).x = a.y * b.z - a.z * b.y := rfl

@[simp] theorem V3.cross_y (a b : V3) : (V3.cross a b).y = a.z * b.x - a.x * b.z := rfl

@[simp] theorem V3.cross_z (a b : V3) : (V3.cross a b).z = a.x * b.y - a.y * b.x := rfl

@[simp] theorem V3.mk_add_mk (a b c d e f : ℚ) :
    ((⟨a, b, c⟩ : V3) + ⟨d, e, f⟩) = ⟨a + d, b + e, c + f⟩ := rfl

@[simp] theorem V3.mk_sub_mk (a b c d e f : ℚ) :
    ((⟨a, b, c⟩ : V3) - ⟨d, e, f⟩) = ⟨a - d, b - e, c - f⟩ := rfl

@[simp] theorem V3.smul_mk (r a b c : ℚ) :
    (r • (⟨a, b, c⟩ : V3)) = ⟨r * a, r * b, r * c⟩ := rfl

theorem V3.dot_def (a b : V3) : V3.dot a b = a.x * b.x + a.y * b.y + a.z * b.z := rfl

theorem V3.normSq_def (a : V3) : V3.normSq a = V3.dot a a := rfl

theorem V3.dot_comm (a b : V3) : V3.dot a b = V3.dot b a := by
  simp only [V3.dot_def]; ring

/-- Modelled from the spec: `math32.Vector3.ApplyAxisAngle` (the math32
library is not under `src/`).  Rotation of `v` about the unit axis `k`
by the angle whose cosine is `c` and whose sine is `s`, written with the
Rodrigues formula; for a unit axis this is the rotation math32 applies
through its quaternion `SetFromAxisAngle`/`ApplyQuaternion` pair, with
the usual right-handed orientation (the source comments on `Yaw` rely on
exactly this orientation). -/
def rotAA (k v : V3) (c s : ℚ) : V3 :=
  (c • v) + (s • V3.cross k v) + ((V3.dot k v * (1 - c)) • k)

/-- Expansion of the squared norm of a Rodrigues rotation (a polynomial
identity, no hypotheses). -/
theorem rotAA_normSq_expand (k v : V3) (c s : ℚ) :
    V3.normSq (rotAA k v c s) =
      c ^ 2 * V3.normSq v
        + s ^ 2 * (V3.normSq k * V3.normSq v - V3.dot k v ^ 2)
        + V3.dot k v ^ 2 * (1 - c) ^ 2 * V3.normSq k
        + 2 * c * V3.dot k v ^ 2 * (1 - c) := by
  simp only [rotAA, V3.normSq_def, V3.dot_def, V3.add_x, V3.add_y, V3.add_z,
    V3.smul_x, V3.smul_y, V3.smul_z, V3.cross_x, V3.cross_y, V3.cross_z]
  ring

/-- A rotation about a unit axis with `c ^ 2 + s ^ 2 = 1` preserves the
squared norm. -/
theorem rotAA_normSq (k v : V3) (c s : ℚ) (hk : V3.normSq k = 1)
    (hcs : c ^ 2 + s ^ 2 = 1) : V3.normSq (rotAA k v c s) = V3.normSq v := by
  rw [rotAA_normSq_expand, hk]
  linear_combination (V3.normSq v - V3.dot k v ^ 2) * hcs

/-- Expansion of the dot product of two vectors rotated by the same
Rodrigues rotation (a polynomial identity, no hypotheses). -/
theorem rotAA_dot_expand (k v w : V3) (c s : ℚ) :
    V3.dot (rotAA k v c s) (rotAA k w c s) =
      c ^ 2 * V3.dot v w
        + s ^ 2 * (V3.normSq k * V3.dot v w - V3.dot k v * V3.dot k w)
        + V3.dot k v * V3.dot k w * ((1 - c) ^ 2 * V3.normSq k + 2 * c * (1 - c)) := by
  simp only [rotAA, V3.normSq_def, V3.dot_def, V3.add_x, V3.add_y, V3.add_z,
    V3.smul_x, V3.smul_y, V3.smul_z, V3.cross_x, V3.cross_y, V3.cross_z]
  ring

/-- A rotation about a unit axis with `c ^ 2 + s ^ 2 = 1` preserves dot
products. -/
theorem rotAA_dot (k v w : V3) (c s : ℚ) (hk : V3.normSq k = 1)
    (hcs : c ^ 2 + s ^ 2 = 1) :
    V3.dot (rotAA k v c s) (rotAA k w c s) = V3.dot v w := by
  rw [rotAA_dot_expand, hk]
  linear_combination (V3.dot v w - V3.dot k v * V3.dot k w) * hcs

/-- Expansion of the dot product of a rotated vector with the axis. -/
theorem rotAA_dot_axis_expand (k v : V3) (c s : ℚ) :
    V3.dot (rotAA k v c s) k =
      c * V3.dot k v + V3.dot k v * (1 - c) * V3.normSq k := by
  simp only [rotAA, V3.normSq_def, V3.dot_def, V3.add_x, V3.add_y, V3.add_z,
    V3.smul_x, V3.smul_y, V3.smul_z, V3.cross_x, V3.cross_y, V3.cross_z]
  ring

/-- Rotating about a unit axis does not change the component along the
axis. -/
theorem rotAA_dot_axis (k v : V3) (c s : ℚ) (hk : V3.normSq k = 1) :
    V3.dot (rotAA k v c s) k = V3.dot v k := by
  rw [rotAA_dot_axis_expand, hk, V3.dot_comm v k]
  ring

/-- Lagrange identity for the cross product (a polynomial identity). -/
theorem cross_normSq (a b : V3) :
    V3.normSq (V3.cross a b) = V3.normSq a * V3.normSq b - V3.dot a b ^ 2 := by
  simp only [V3.normSq_def, V3.dot_def, V3.cross_x, V3.cross_y, V3.cross_z]
  ring

theorem normSq_smul (r : ℚ) (v : V3) : V3.normSq (r • v) = r ^ 2 * V3.normSq v := by
  simp only [V3.normSq_def, V3.dot_def, V3.smul_x, V3.smul_y, V3.smul_z]
  ring

theorem dot_smul_right (a : V3) (r : ℚ) (b : V3) :
    V3.dot a (r • b) = r * V3.dot a b := by
  simp only [V3.dot_def, V3.smul_x, V3.smul_y, V3.smul_z]
  ring

theorem dot_cross_right_self (a b : V3) : V3.dot b (V3.cross a b) = 0 := by
  simp only [V3.dot_def, V3.cross_x, V3.cross_y, V3.cross_z]
  ring

/-- Rotating by the angle with sine `-s` and then by the angle with sine
`s` (same cosine) about the same unit axis is the identity: the two
rotations are mutually inverse.  This is what lets a theorem say that a
vector was rotated "by `-delta`". -/
theorem rotAA_neg_cancel (k v : V3) (c s : ℚ) (hk : V3.normSq k = 1)
    (hcs : c ^ 2 + s ^ 2 = 1) : rotAA k (rotAA k v c (-s)) c s = v := by
  simp only [V3.normSq_def, V3.dot_def] at hk
  ext <;>
    simp only [rotAA, V3.dot_def, V3.add_x, V3.add_y, V3.add_z,
      V3.smul_x, V3.smul_y, V3.smul_z, V3.cross_x, V3.cross_y, V3.cross_z]
  · linear_combination
      (s ^ 2 * v.x + (k.x * v.x + k.y * v.y + k.z * v.z) * (1 - c) ^ 2 * k.x) * hk
      + (v.x - (k.x * v.x + k.y * v.y + k.z * v.z) * k.x) * hcs
  · linear_combination
      (s ^ 2 * v.y + (k.x * v.x + k.y * v.y + k.z * v.z) * (1 - c) ^ 2 * k.y) * hk
      + (v.y - (k.x * v.x + k.y * v.y + k.z * v.z) * k.y) * hcs
  · linear_combination
      (s ^ 2 * v.z + (k.x * v.x + k.y * v.y + k.z * v.z) * (1 - c) ^ 2 * k.z) * hk
      + (v.z - (k.x * v.x + k.y * v.y + k.z * v.z) * k.z) * hcs

/-! ## Data model (`FlyControl` and its collaborators) -/

/-- The 14 symbolic movements (type FlyMovement, part_000 lines 34-51). -/
inductive FlyMovement where
  | forward | backward | right | left | up | down
  | yawRight | yawLeft | pitchUp | pitchDown | rollRight | rollLeft
  | zoomOut | zoomIn
deriving DecidableEq, Repr

/-- The discrete mouse-motion classifications (type MouseMotion,
part_000 lines 53-65). -/
inductive MouseMotion where
  | mouseNone
  | mouseRight | mouseLeft | mouseDown | mouseUp
  | mouseScrollRight | mouseScrollLeft | mouseScrollDown | mouseScrollUp
deriving DecidableEq, Repr

/-- A configured mouse gesture (type MouseGuesture, part_000 lines
67-72; the source's spelling is kept).  Buttons are the GLFW button
numbers (window.MouseButton), embedded as naturals. -/
structure MouseGuesture where
  motion : MouseMotion
  buttons : List ℕ
  captured : Bool
deriving DecidableEq, Repr

/-- The external camera collaborator, at its interface boundary: a
position, a field of view held in degrees (Fov/SetFov), and the
arguments of the last LookAt call (LookAt recomputes the view transform
from a target point and an up vector; it does not move the camera). -/
structure Cam where
  pos : V3
  fovDeg : ℚ
  lookTarget : V3
  lookUp : V3
deriving DecidableEq, Repr

def Cam.lookAt (cam : Cam) (target upv : V3) : Cam :=
  { cam with lookTarget := target, lookUp := upv }

def Cam.setFov (cam : Cam) (f : ℚ) : Cam :=
  { cam with fovDeg := f }

def Cam.setPositionVec (cam : Cam) (p : V3) : Cam :=
  { cam with pos := p }

/-- The controller state (struct FlyControl, part_000 lines 78-113).
Go maps are embedded as `Option`-valued functions (a missing key is
`none`; where the code reads a map entry without the `ok` flag, the Go
zero value `0` is the default).  The Mouse map is embedded as an
association list, since the handlers iterate over it.  The
NaN-as-unset sentinel for `mousePrevPos` is embedded as `Option`
(`none` = the NaN marker set by `resetMousePrevPosition`). -/
structure FlyControl where
  cam : Cam
  position : V3
  rotation : V3
  forward : V3
  up : V3
  upWorld : V3
  useUpWorld : Bool
  mouseIsCaptured : Bool
  mousePrevPos : Option (ℚ × ℚ)
  mouseBtnState : ℕ
  mouseSensitivity : ℚ
  constraints : FlyMovement → Option ℚ
  speeds : FlyMovement → Option ℚ
  mouse : List (FlyMovement × MouseGuesture)

/-- whichUp (part_000 lines 461-467): the up vector the movement code
uses, world up or camera up. -/
def whichUp (fc : FlyControl) : V3 :=
  if fc.useUpWorld then fc.upWorld else fc.up

/-- Speeds map read `fc.Speeds[m]` (no ok-flag, so a missing entry reads
as the Go zero value 0). -/
def speedOf (fc : FlyControl) (m : FlyMovement) : ℚ :=
  (fc.speeds m).getD 0

/-- constraintOk (part_000 lines 449-459). -/
def constraintOk (fc : FlyControl) (newValue : ℚ) (low high : FlyMovement) : Bool :=
  let minOpt := fc.constraints low
  let maxOpt := fc.constraints high
  if minOpt.isSome && decide (newValue < minOpt.getD 0) then false
  else if maxOpt.isSome && decide (newValue > maxOpt.getD 0) then false
  else true

/-! ## Frame operations -/

/-- Reorient (part_000 lines 336-343).  The source normalizes three
vectors; `Normalize` (math32, not under `src/`) divides a vector by its
Euclidean norm, which has no exact rational form, so the embedding takes
the three inverse norms as explicit scalars `r1 r2 r3`: theorems about
`reorient` carry hypotheses of the form `r ^ 2 * normSq v = 1` saying
the scalar really is `1 / ‖v‖`. -/
def reoFwd (fc : FlyControl) (target : V3) (r1 : ℚ) : V3 :=
  r1 • (target - fc.position)

def reoRight (fc : FlyControl) (target worldUp : V3) (r1 r2 : ℚ) : V3 :=
  r2 • V3.cross (reoFwd fc target r1) worldUp

def reoUp (fc : FlyControl) (target worldUp : V3) (r1 r2 r3 : ℚ) : V3 :=
  r3 • V3.cross (reoRight fc target worldUp r1 r2) (reoFwd fc target r1)

def reorient (fc : FlyControl) (target worldUp : V3) (r1 r2 r3 : ℚ) : FlyControl :=
  { fc with
    rotation := ⟨0, 0, 0⟩
    upWorld := worldUp
    forward := reoFwd fc target r1
    up := reoUp fc target worldUp r1 r2 r3 }

/-- UseWorldUp (part_000 lines 477-483): switching the mode reorients
along the current forward direction, keeping the position. -/
def useWorldUpStep (fc : FlyControl) (use : Bool) (r1 r2 r3 : ℚ) : FlyControl :=
  let changed := fc.useUpWorld != use
  let fc' := { fc with useUpWorld := use }
  if changed then reorient fc' (fc'.position + fc'.forward) fc'.upWorld r1 r2 r3
  else fc'

/-- Yaw (part_000 lines 386-399).  `delta` is the bookkeeping angle in
radians, `(c, s)` its cosine and sine; the vector rotation uses
`(c, -s)`, the cosine/sine pair of `-delta`, mirroring
`ApplyAxisAngle(up, -delta)`. -/
def yawStep (fc : FlyControl) (delta c s : ℚ) : FlyControl :=
  let yawv := fc.rotation.x + delta
  if constraintOk fc yawv FlyMovement.yawLeft FlyMovement.yawRight then
    let u := whichUp fc
    let fwd := rotAA u fc.forward c (-s)
    { fc with
      rotation := ⟨yawv, fc.rotation.y, fc.rotation.z⟩
      forward := fwd
      cam := fc.cam.lookAt (fc.position + fwd) u }
  else fc

/-- Pitch (part_000 lines 402-414).  The Go `up` local is a pointer to
`fc.up` (camera mode) or `fc.upWorld` (world mode); by the time LookAt
reads it, `fc.up` has already been rotated, hence `lookUpVec`. -/
def pitchStep (fc : FlyControl) (delta c s : ℚ) : FlyControl :=
  let pitchv := fc.rotation.y + delta
  if constraintOk fc pitchv FlyMovement.pitchDown FlyMovement.pitchUp then
    let u := whichUp fc
    let r := V3.cross fc.forward u
    let fwd := rotAA r fc.forward c s
    let newUp := rotAA r fc.up c s
    let lookUpVec := if fc.useUpWorld then fc.upWorld else newUp
    { fc with
      rotation := ⟨fc.rotation.x, pitchv, fc.rotation.z⟩
      forward := fwd
      up := newUp
      cam := fc.cam.lookAt (fc.position + fwd) lookUpVec }
  else fc

/-- Roll (part_000 lines 417-427); same pointer aliasing note as
`pitchStep`. -/
def rollStep (fc : FlyControl) (delta c s : ℚ) : FlyControl :=
  let rollv := fc.rotation.z + delta
  if constraintOk fc rollv FlyMovement.rollLeft FlyMovement.rollRight then
    let newUp := rotAA fc.forward fc.up c s
    let lookUpVec := if fc.useUpWorld then fc.upWorld else newUp
    { fc with
      rotation := ⟨fc.rotation.x, fc.rotation.y, rollv⟩
      up := newUp
      cam := fc.cam.lookAt (fc.position + fc.forward) lookUpVec }
  else fc

/-- Zoom (part_000 lines 432-437).  `deg` stands for the source constant
`degrees = math32.Pi / 180.0`; the code multiplies by
`radians = 1.0 / degrees` to convert back. -/
def zoomStep (deg : ℚ) (fc : FlyControl) (delta : ℚ) : FlyControl :=
  let newFovRad := fc.cam.fovDeg * deg + delta
  if constraintOk fc newFovRad FlyMovement.zoomIn FlyMovement.zoomOut then
    { fc with cam := fc.cam.setFov (newFovRad * (1 / deg)) }
  else fc

/-- ScaleZoom (part_000 lines 440-445). -/
def scaleZoomStep (deg : ℚ) (fc : FlyControl) (fovScale : ℚ) : FlyControl :=
  let newFovRad := fc.cam.fovDeg * deg * fovScale
  if constraintOk fc newFovRad FlyMovement.zoomIn FlyMovement.zoomOut then
    { fc with cam := fc.cam.setFov (newFovRad * (1 / deg)) }
  else fc

/-! ## Event-resolver state -/

/-- SetMouseIsCaptured (part_000 lines 512-515): records the capture
flag and resets the previous-cursor-position sentinel. -/
def setMouseIsCaptured (fc : FlyControl) (captured : Bool) : FlyControl :=
  { fc with mouseIsCaptured := captured, mousePrevPos := none }

/-- toggleMouseButton (part_000 lines 518-520):
`fc.mouseBtnState ^= 1 << button` on a uint32 state. -/
def toggleMouseButton (fc : FlyControl) (button : ℕ) : FlyControl :=
  { fc with mouseBtnState := fc.mouseBtnState ^^^ (2 ^ button % 2 ^ 32) }

/-- onMouse (part_000 lines 547-550): button-down and button-up events
both toggle the button's bit. -/
def onMouse (fc : FlyControl) (button : ℕ) : FlyControl :=
  toggleMouseButton fc button

/-- The XOR of the chord's button bits (the `bits` accumulator of
mouseButtonsPressed, part_000 lines 527-530). -/
def chordBits (buttons : List ℕ) : ℕ :=
  buttons.foldl (fun bits b => bits ^^^ (2 ^ b % 2 ^ 32)) 0

/-- mouseButtonsPressed (part_000 lines 523-532). -/
def mouseButtonsPressed (fc : FlyControl) (buttons : List ℕ) : Bool :=
  if fc.mouseBtnState == 0 && buttons.isEmpty then true
  else fc.mouseBtnState == chordBits buttons

/-- The cursor moderation constant (part_000 line 561, `0.25`). -/
def moderator : ℚ := 1 / 4

/-- The previous cursor position the delta is measured from: the code
first seeds `fc.mousePrevPos` with the event's coordinates when the
sentinel is unset (part_000 lines 556-559). -/
def cursorPrev (fc : FlyControl) (xpos ypos : ℚ) : ℚ × ℚ :=
  match fc.mousePrevPos with
  | none => (xpos, ypos)
  | some p => p

/-- The moderated, sensitivity-scaled cursor deltas (part_000 lines
561-563). -/
def cursorDeltas (fc : FlyControl) (xpos ypos : ℚ) : ℚ × ℚ :=
  let p := cursorPrev fc xpos ypos
  ((xpos - p.1) * moderator * fc.mouseSensitivity,
   (ypos - p.2) * moderator * fc.mouseSensitivity)

/-- Classification of the horizontal delta (part_000 lines 568-576). -/
def classifyDx (dx : ℚ) : MouseMotion :=
  if dx ≠ 0 then (if dx > 0 then MouseMotion.mouseRight else MouseMotion.mouseLeft)
  else MouseMotion.mouseNone

/-- Classification of the vertical delta (part_000 lines 569-583). -/
def classifyDy (dy : ℚ) : MouseMotion :=
  if dy ≠ 0 then (if dy > 0 then MouseMotion.mouseDown else MouseMotion.mouseUp)
  else MouseMotion.mouseNone

/-- The `fc.apply(m, ...)` calls one configured gesture contributes for
one cursor event (the body of the loop, part_000 lines 586-599): the
chord and the capture state gate the gesture, then the horizontal and
the vertical classification are checked independently. -/
def gestureDispatches (fc : FlyControl) (dx dy : ℚ) (m : FlyMovement)
    (g : MouseGuesture) : List (FlyMovement × ℚ) :=
  if mouseButtonsPressed fc g.buttons && (g.captured == fc.mouseIsCaptured) then
    (if g.motion == classifyDx dx then [(m, |dx| * speedOf fc m)] else [])
      ++ (if g.motion == classifyDy dy then [(m, |dy| * speedOf fc m)] else [])
  else []

/-- All `fc.apply` calls of one cursor event, over the gesture table. -/
def cursorDispatches (fc : FlyControl) (xpos ypos : ℚ) : List (FlyMovement × ℚ) :=
  let d := cursorDeltas fc xpos ypos
  (fc.mouse.map (fun p => gestureDispatches fc d.1 d.2 p.1 p.2)).flatten

/-- onCursor (part_000 lines 553-600): the state part is the
previous-position update (done before the dispatch loop); the second
component is the sequence of `fc.apply(movement, magnitude)` calls the
handler makes, whose effect on the frame is the movement step functions
above. -/
def onCursor (fc : FlyControl) (xpos ypos : ℚ) :
    FlyControl × List (FlyMovement × ℚ) :=
  ({ fc with mousePrevPos := some (xpos, ypos) }, cursorDispatches fc xpos ypos)

/-! ## Concrete states used by counterexamples and witnesses -/

/-- A camera at the origin with a 60-degree field of view. -/
def camB : Cam := ⟨⟨0, 0, 0⟩, 60, ⟨0, 0, 0⟩, ⟨0, 1, 0⟩⟩

/-- The canonical starting state: position at the origin, forward along
-Z, up along +Y, world up +Y, world-up mode, no constraints configured
(an empty Constraints map accepts everything), the default mouse state
of NewFlyControl (sensitivity 0.5, no buttons, sentinel unset). -/
def fcBase : FlyControl :=
  { cam := camB
    position := ⟨0, 0, 0⟩
    rotation := ⟨0, 0, 0⟩
    forward := ⟨0, 0, -1⟩
    up := ⟨0, 1, 0⟩
    upWorld := ⟨0, 1, 0⟩
    useUpWorld := true
    mouseIsCaptured := false
    mousePrevPos := none
    mouseBtnState := 0
    mouseSensitivity := 1 / 2
    constraints := fun _ => none
    speeds := fun _ => none
    mouse := [] }

/-! ## C2: the constraint evaluator -/

/-- Acceptance characterization of `constraintOk` (shared helper). -/
theorem constraintOk_true_iff (fc : FlyControl) (v : ℚ) (low high : FlyMovement) :
    constraintOk fc v low high = true ↔
      ((∀ lo : ℚ, fc.constraints low = some lo → lo ≤ v) ∧
       (∀ hi : ℚ, fc.constraints high = some hi → v ≤ hi)) := by
  cases h1 : fc.constraints low <;> cases h2 : fc.constraints high <;>
    simp [constraintOk, h1, h2, not_lt]

/-- C2.  `constraintOk` accepts a proposed value exactly when the value
is at least the low bound whenever one is defined and at most the high
bound whenever one is defined; values equal to a bound are accepted
(the comparisons are strict in the rejecting direction), and with both
entries absent — in particular with an empty constraint table — every
value is accepted. -/
theorem constraintOk_accepts_iff_within_bounds (fc : FlyControl) (v : ℚ)
    (low high : FlyMovement) :
    (constraintOk fc v low high = true ↔
      ((∀ lo : ℚ, fc.constraints low = some lo → lo ≤ v) ∧
       (∀ hi : ℚ, fc.constraints high = some hi → v ≤ hi)))
    ∧ (fc.constraints low = none → fc.constraints high = none →
        constraintOk fc v low high = true) := by
  refine ⟨constraintOk_true_iff fc v low high, fun h1 h2 => ?_⟩
  simp [constraintOk, h1, h2]

/-! ## C10: Reorient touches only the orientation state -/

/-- C10.  `Reorient` rewrites the accumulated rotation (to zero), the
stored world up, and the forward and up vectors, and nothing else: the
position field, the external camera (hence its position), the mode
flag, the whole mouse state and the configuration tables are returned
unchanged.  The same holds for the `Reorient` call made internally by
the `UseWorldUp` mode switch, which also leaves position and camera
alone. -/
theorem reorient_touches_only_the_frame (fc : FlyControl) (target worldUp : V3)
    (r1 r2 r3 : ℚ) (use : Bool) :
    ((reorient fc target worldUp r1 r2 r3).position = fc.position
      ∧ (reorient fc target worldUp r1 r2 r3).cam = fc.cam
      ∧ (reorient fc target worldUp r1 r2 r3).useUpWorld = fc.useUpWorld
      ∧ (reorient fc target worldUp r1 r2 r3).mouseIsCaptured = fc.mouseIsCaptured
      ∧ (reorient fc target worldUp r1 r2 r3).mousePrevPos = fc.mousePrevPos
      ∧ (reorient fc target worldUp r1 r2 r3).mouseBtnState = fc.mouseBtnState
      ∧ (reorient fc target worldUp r1 r2 r3).mouseSensitivity = fc.mouseSensitivity
      ∧ (reorient fc target worldUp r1 r2 r3).constraints = fc.constraints
      ∧ (reorient fc target worldUp r1 r2 r3).speeds = fc.speeds
      ∧ (reorient fc target worldUp r1 r2 r3).mouse = fc.mouse
      ∧ (reorient fc target worldUp r1 r2 r3).rotation = ⟨0, 0, 0⟩
      ∧ (reorient fc target worldUp r1 r2 r3).upWorld = worldUp)
    ∧ ((useWorldUpStep fc use r1 r2 r3).position = fc.position
      ∧ (useWorldUpStep fc use r1 r2 r3).cam = fc.cam
      ∧ (useWorldUpStep fc use r1 r2 r3).cam.pos = fc.cam.pos) := by
  refine ⟨⟨rfl, rfl, rfl, rfl, rfl, rfl, rfl, rfl, rfl, rfl, rfl, rfl⟩, ?_⟩
  cases h : fc.useUpWorld != use <;> simp [useWorldUpStep, reorient, h]

/-! ## C4: the yaw sign convention at a quarter turn -/

/-- C4, counterexample.  From forward = (0,0,-1), up = world-up =
(0,1,0) and no yaw constraints (`fcBase`), `Yaw(+pi/2)` — the quarter
turn, whose cosine/sine pair is exactly (0, 1); the rational `157/100`
only stands in for the bookkeeping entry pi/2, which no constraint
reads — moves `forward` to (1,0,0), the +X direction.  The claim says
the forward vector ends up pointing toward -X; its x-component is not
negative, so the claim is false. -/
theorem yaw_quarter_turn_not_toward_negX :
    (yawStep fcBase (157 / 100) 0 1).forward = ⟨1, 0, 0⟩
      ∧ ¬ (yawStep fcBase (157 / 100) 0 1).forward.x < 0 := by
  norm_num [yawStep, fcBase, camB, whichUp, rotAA, constraintOk,
    V3.cross, V3.dot, Cam.lookAt]

/-- C4, as amended.  Under the code's sign inversion
(`ApplyAxisAngle(up, -delta)`), `Yaw(+pi/2)` from the canonical frame
rotates `forward` to +X — the camera turns right for positive yaw
input, the direction the positive `YawRight` speed entries feed it —
while the bookkeeping records the un-negated +pi/2. -/
theorem yaw_quarter_turn_toward_posX :
    (yawStep fcBase (157 / 100) 0 1).forward = ⟨1, 0, 0⟩
      ∧ (yawStep fcBase (157 / 100) 0 1).rotation.x = 157 / 100
      ∧ 0 < (yawStep fcBase (157 / 100) 0 1).forward.x := by
  norm_num [yawStep, fcBase, camB, whichUp, rotAA, constraintOk,
    V3.cross, V3.dot, Cam.lookAt]

/-! ## C9: the XOR button toggle -/

/-- C9, counterexample.  Two button-down events for button 0 (each
delivered to `onMouse`, which XOR-toggles the bit) leave the button's
bit cleared, not set as the claim states: the second down-event undoes
the first. -/
theorem double_button_down_clears_bit :
    ((onMouse (onMouse fcBase 0) 0).mouseBtnState).testBit 0 = false := by
  decide

/-- C9, as amended.  Button-down and button-up events alike XOR-toggle
the pressed button's bit, so down followed by up restores the previous
held set (empty stays empty); but a second down-event without an
intervening up toggles the bit off again rather than leaving it set —
the state desynchronizes from the physically held button. -/
theorem button_toggle_is_involution (fc : FlyControl) (b : ℕ) (hb : b < 32) :
    toggleMouseButton (toggleMouseButton fc b) b = fc
      ∧ ((toggleMouseButton fc b).mouseBtnState).testBit b
          = !(fc.mouseBtnState.testBit b)
      ∧ onMouse (onMouse fc b) b = fc := by
  have hpow : 2 ^ b % 2 ^ 32 = 2 ^ b :=
    Nat.mod_eq_of_lt (Nat.pow_lt_pow_right one_lt_two hb)
  have hinv : toggleMouseButton (toggleMouseButton fc b) b = fc := by
    show ({ fc with mouseBtnState :=
      (fc.mouseBtnState ^^^ (2 ^ b % 2 ^ 32)) ^^^ (2 ^ b % 2 ^ 32) } : FlyControl) = fc
    rw [Nat.xor_cancel_right]
  refine ⟨hinv, ?_, hinv⟩
  show (fc.mouseBtnState ^^^ (2 ^ b % 2 ^ 32)).testBit b = _
  rw [hpow, Nat.testBit_xor, Nat.testBit_two_pow_self, Bool.xor_true]

theorem button_toggle_is_involution_witness :
    toggleMouseButton (toggleMouseButton fcBase 0) 0 = fcBase
      ∧ ((toggleMouseButton fcBase 0).mouseBtnState).testBit 0
          = !(fcBase.mouseBtnState.testBit 0)
      ∧ onMouse (onMouse fcBase 0) 0 = fcBase :=
  button_toggle_is_involution fcBase 0 (by decide)

/-! ## C5: constraint rejection is a silent no-op -/

/-- C5.  Whenever the proposed new scalar of a Yaw, Pitch, Roll, Zoom or
ScaleZoom call fails its constraint check, the call returns the state
unchanged — same position, accumulated rotation, forward, up, camera
(hence field of view), mouse state and tables.  The step functions are
total: no error value exists to be raised or surfaced. -/
theorem rejected_calls_are_silent_noops (deg : ℚ) (fc : FlyControl)
    (dy dp dr dz fs c s : ℚ)
    (hy : constraintOk fc (fc.rotation.x + dy)
      FlyMovement.yawLeft FlyMovement.yawRight = false)
    (hp : constraintOk fc (fc.rotation.y + dp)
      FlyMovement.pitchDown FlyMovement.pitchUp = false)
    (hr : constraintOk fc (fc.rotation.z + dr)
      FlyMovement.rollLeft FlyMovement.rollRight = false)
    (hz : constraintOk fc (fc.cam.fovDeg * deg + dz)
      FlyMovement.zoomIn FlyMovement.zoomOut = false)
    (hs : constraintOk fc (fc.cam.fovDeg * deg * fs)
      FlyMovement.zoomIn FlyMovement.zoomOut = false) :
    yawStep fc dy c s = fc ∧ pitchStep fc dp c s = fc ∧ rollStep fc dr c s = fc
      ∧ zoomStep deg fc dz = fc ∧ scaleZoomStep deg fc fs = fc := by
  refine ⟨?_, ?_, ?_, ?_, ?_⟩
  · simp [yawStep, hy]
  · simp [pitchStep, hp]
  · simp [rollStep, hr]
  · simp [zoomStep, hz]
  · simp [scaleZoomStep, hs]

/-- A state whose constraint table rejects every one of the five
rotation/zoom proposals used in the C5 witness (each high bound is -1,
below every proposed value). -/
def fcRej : FlyControl :=
  { fcBase with
    constraints := fun m =>
      match m with
      | FlyMovement.yawRight => some (-1)
      | FlyMovement.pitchUp => some (-1)
      | FlyMovement.rollRight => some (-1)
      | FlyMovement.zoomOut => some (-1)
      | _ => none }

theorem rejected_calls_are_silent_noops_witness :
    yawStep fcRej 1 1 0 = fcRej ∧ pitchStep fcRej 1 1 0 = fcRej
      ∧ rollStep fcRej 1 1 0 = fcRej ∧ zoomStep 1 fcRej 1 = fcRej
      ∧ scaleZoomStep 1 fcRej 1 = fcRej :=
  rejected_calls_are_silent_noops 1 fcRej 1 1 1 1 1 1 0
    (by norm_num [constraintOk, fcRej, fcBase, camB])
    (by norm_num [constraintOk, fcRej, fcBase, camB])
    (by norm_num [constraintOk, fcRej, fcBase, camB])
    (by norm_num [constraintOk, fcRej, fcBase, camB])
    (by norm_num [constraintOk, fcRej, fcBase, camB])

/-! ## C3: yaw bookkeeping vs. yaw rotation -/

/-- C3.  An accepted `Yaw(delta)` stores the un-negated accumulated yaw
(prior value plus `delta`) while rotating `forward` about the current
up axis by `-delta`: the committed forward vector is `rotAA u fwd c (-s)`
— the Rodrigues rotation by the angle with cosine `c` and sine `-s`,
i.e. by `-delta` — and rotating it back by `+delta` recovers the old
forward vector (for a unit up axis and a genuine cosine/sine pair). -/
theorem yaw_commits_unnegated_and_rotates_by_neg_delta
    (fc : FlyControl) (delta c s : ℚ)
    (hok : constraintOk fc (fc.rotation.x + delta)
      FlyMovement.yawLeft FlyMovement.yawRight = true) :
    (yawStep fc delta c s).rotation.x = fc.rotation.x + delta
      ∧ (yawStep fc delta c s).forward = rotAA (whichUp fc) fc.forward c (-s)
      ∧ (V3.normSq (whichUp fc) = 1 → c ^ 2 + s ^ 2 = 1 →
          rotAA (whichUp fc) ((yawStep fc delta c s).forward) c s = fc.forward) := by
  refine ⟨?_, ?_, ?_⟩
  · simp [yawStep, hok]
  · simp [yawStep, hok]
  · intro hk hcs
    simp only [yawStep, hok, if_true]
    exact rotAA_neg_cancel _ _ _ _ hk hcs

theorem yaw_commits_unnegated_and_rotates_by_neg_delta_witness :
    (yawStep fcBase 1 (3 / 5) (4 / 5)).rotation.x = fcBase.rotation.x + 1
      ∧ (yawStep fcBase 1 (3 / 5) (4 / 5)).forward
          = rotAA (whichUp fcBase) fcBase.forward (3 / 5) (-(4 / 5))
      ∧ rotAA (whichUp fcBase) ((yawStep fcBase 1 (3 / 5) (4 / 5)).forward)
          (3 / 5) (4 / 5) = fcBase.forward := by
  have h := yaw_commits_unnegated_and_rotates_by_neg_delta fcBase 1 (3 / 5) (4 / 5)
    (by norm_num [constraintOk, fcBase, camB])
  exact ⟨h.1, h.2.1,
    h.2.2 (by norm_num [whichUp, fcBase, camB, V3.normSq_def, V3.dot_def]) (by norm_num)⟩

/-! ## C8: zoom bounds invariant -/

/-- A Zoom or ScaleZoom call, as dispatched against the camera's field
of view. -/
inductive ZoomCall where
  | zoom (delta : ℚ)
  | scale (factor : ℚ)

def applyZoomCall (deg : ℚ) (fc : FlyControl) : ZoomCall → FlyControl
  | ZoomCall.zoom d => zoomStep deg fc d
  | ZoomCall.scale f => scaleZoomStep deg fc f

def applyZoomCalls (deg : ℚ) (fc : FlyControl) (l : List ZoomCall) : FlyControl :=
  l.foldl (applyZoomCall deg) fc

/-- One Zoom/ScaleZoom call keeps the field of view inside [1°, 100°]
and leaves the constraint table alone (shared helper for C8). -/
theorem zoom_step_bounds (deg : ℚ) (fc : FlyControl) (hdeg : 0 < deg)
    (hlo : fc.constraints FlyMovement.zoomIn = some (1 * deg))
    (hhi : fc.constraints FlyMovement.zoomOut = some (100 * deg))
    (h1 : 1 ≤ fc.cam.fovDeg) (h2 : fc.cam.fovDeg ≤ 100) (call : ZoomCall) :
    (1 ≤ (applyZoomCall deg fc call).cam.fovDeg
      ∧ (applyZoomCall deg fc call).cam.fovDeg ≤ 100)
      ∧ (applyZoomCall deg fc call).constraints = fc.constraints := by
  have key : ∀ newFovRad : ℚ,
      constraintOk fc newFovRad FlyMovement.zoomIn FlyMovement.zoomOut = true →
      1 ≤ newFovRad * (1 / deg) ∧ newFovRad * (1 / deg) ≤ 100 := by
    intro nfr hok
    have hb := (constraintOk_true_iff fc nfr FlyMovement.zoomIn FlyMovement.zoomOut).mp hok
    have hlow : 1 * deg ≤ nfr := hb.1 (1 * deg) hlo
    have hhigh : nfr ≤ 100 * deg := hb.2 (100 * deg) hhi
    rw [mul_one_div]
    constructor
    · rw [le_div_iff₀ hdeg]
      linarith
    · rw [div_le_iff₀ hdeg]
      exact hhigh
  cases call with
  | zoom d =>
    cases hok : constraintOk fc (fc.cam.fovDeg * deg + d)
        FlyMovement.zoomIn FlyMovement.zoomOut with
    | false => simp [applyZoomCall, zoomStep, hok, h1, h2]
    | true =>
      have := key _ hok
      simp [applyZoomCall, zoomStep, hok, Cam.setFov]
      simpa [one_div] using this
  | scale f =>
    cases hok : constraintOk fc (fc.cam.fovDeg * deg * f)
        FlyMovement.zoomIn FlyMovement.zoomOut with
    | false => simp [applyZoomCall, scaleZoomStep, hok, h1, h2]
    | true =>
      have := key _ hok
      simp [applyZoomCall, scaleZoomStep, hok, Cam.setFov]
      simpa [one_div] using this

/-- C8.  With the ZoomIn entry at 1 degree and the ZoomOut entry at
100 degrees (both stored in radians: the bound times the
degrees-to-radians factor `deg`, the embedding's stand-in for the
source constant `degrees = math32.Pi / 180.0`), any sequence of Zoom
and ScaleZoom calls keeps a field of view that starts inside
[1°, 100°] inside [1°, 100°]: a call whose proposed field of view
falls outside the bounds leaves it unchanged. -/
theorem zoom_fov_stays_within_bounds (deg : ℚ) (fc : FlyControl) (l : List ZoomCall)
    (hdeg : 0 < deg)
    (hlo : fc.constraints FlyMovement.zoomIn = some (1 * deg))
    (hhi : fc.constraints FlyMovement.zoomOut = some (100 * deg))
    (h1 : 1 ≤ fc.cam.fovDeg) (h2 : fc.cam.fovDeg ≤ 100) :
    1 ≤ (applyZoomCalls deg fc l).cam.fovDeg
      ∧ (applyZoomCalls deg fc l).cam.fovDeg ≤ 100 := by
  induction l generalizing fc with
  | nil => exact ⟨h1, h2⟩
  | cons call rest ih =>
    have hstep := zoom_step_bounds deg fc hdeg hlo hhi h1 h2 call
    have hl : applyZoomCalls deg fc (call :: rest)
        = applyZoomCalls deg (applyZoomCall deg fc call) rest := rfl
    rw [hl]
    exact ih (applyZoomCall deg fc call)
      (by rw [hstep.2]; exact hlo) (by rw [hstep.2]; exact hhi) hstep.1.1 hstep.1.2

/-- The C8 witness configuration: ZoomIn and ZoomOut bounds installed
as 1° and 100° in radians with `deg = 7/400` (a rational stand-in for
the float value of pi/180). -/
def fcZoom : FlyControl :=
  { fcBase with
    constraints := fun m =>
      match m with
      | FlyMovement.zoomIn => some (1 * (7 / 400))
      | FlyMovement.zoomOut => some (100 * (7 / 400))
      | _ => none }

theorem zoom_fov_stays_within_bounds_witness :
    1 ≤ (applyZoomCalls (7 / 400) fcZoom
          [ZoomCall.zoom 1, ZoomCall.scale (1 / 2), ZoomCall.zoom (-2)]).cam.fovDeg
      ∧ (applyZoomCalls (7 / 400) fcZoom
          [ZoomCall.zoom 1, ZoomCall.scale (1 / 2), ZoomCall.zoom (-2)]).cam.fovDeg ≤ 100 :=
  zoom_fov_stays_within_bounds (7 / 400) fcZoom
    [ZoomCall.zoom 1, ZoomCall.scale (1 / 2), ZoomCall.zoom (-2)]
    (by norm_num) (by norm_num [fcZoom, fcBase]) (by norm_num [fcZoom, fcBase])
    (by norm_num [fcZoom, fcBase, camB]) (by norm_num [fcZoom, fcBase, camB])

/-! ## C7: the cursor-position sentinel -/

/-- Every `fc.apply` call a gesture contributes names the gesture's
movement, with magnitude the absolute horizontal or vertical delta
times the movement's speed (shared helper for C6 and C7). -/
theorem mem_gestureDispatches (fc : FlyControl) (dx dy : ℚ) (m : FlyMovement)
    (g : MouseGuesture) (p : FlyMovement × ℚ)
    (hp : p ∈ gestureDispatches fc dx dy m g) :
    p.1 = m ∧ (p.2 = |dx| * speedOf fc m ∨ p.2 = |dy| * speedOf fc m) := by
  unfold gestureDispatches at hp
  split at hp
  · rcases List.mem_append.mp hp with h | h <;> split at h <;> simp_all
  · simp at hp

/-- C7.  When the previous-position sentinel is unset (as after
construction or after a capture-state change), a cursor event at any
absolute coordinates yields zero deltas, so every dispatched movement
magnitude is zero, and the event seeds the previous position with its
own coordinates; the next cursor event then yields deltas equal to the
coordinate difference scaled by the moderation constant and the
sensitivity multiplier.  `SetMouseIsCaptured` resets the sentinel to
unset. -/
theorem cursor_sentinel (fc : FlyControl) (x1 y1 x2 y2 : ℚ) (b : Bool)
    (hprev : fc.mousePrevPos = none) :
    cursorDeltas fc x1 y1 = (0, 0)
      ∧ (∀ p ∈ cursorDispatches fc x1 y1, p.2 = 0)
      ∧ (onCursor fc x1 y1).1.mousePrevPos = some (x1, y1)
      ∧ cursorDeltas (onCursor fc x1 y1).1 x2 y2
          = ((x2 - x1) * moderator * fc.mouseSensitivity,
             (y2 - y1) * moderator * fc.mouseSensitivity)
      ∧ (setMouseIsCaptured fc b).mousePrevPos = none := by
  have hd : cursorDeltas fc x1 y1 = (0, 0) := by
    simp [cursorDeltas, cursorPrev, hprev]
  refine ⟨hd, ?_, rfl, ?_, rfl⟩
  · intro p hp
    simp only [cursorDispatches, hd] at hp
    rw [List.mem_flatten] at hp
    obtain ⟨l, hl, hpl⟩ := hp
    rw [List.mem_map] at hl
    obtain ⟨q, _, rfl⟩ := hl
    have hmag := (mem_gestureDispatches fc 0 0 q.1 q.2 p hpl).2
    rcases hmag with h | h <;> simp [h]
  · simp [cursorDeltas, cursorPrev, onCursor]

theorem cursor_sentinel_witness :
    cursorDeltas fcBase 10 20 = (0, 0)
      ∧ (∀ p ∈ cursorDispatches fcBase 10 20, p.2 = 0)
      ∧ (onCursor fcBase 10 20).1.mousePrevPos = some (10, 20)
      ∧ cursorDeltas (onCursor fcBase 10 20).1 11 22
          = ((11 - 10) * moderator * fcBase.mouseSensitivity,
             (22 - 20) * moderator * fcBase.mouseSensitivity)
      ∧ (setMouseIsCaptured fcBase true).mousePrevPos = none :=
  cursor_sentinel fcBase 10 20 11 22 true rfl

/-! ## C6: gesture matching on cursor events -/

/-- Pulling the seed of the XOR fold out in front (shared helper). -/
theorem foldl_xor_shift (l : List ℕ) (i : ℕ) :
    l.foldl (fun bits b => bits ^^^ (2 ^ b % 2 ^ 32)) i
      = i ^^^ l.foldl (fun bits b => bits ^^^ (2 ^ b % 2 ^ 32)) 0 := by
  induction l generalizing i with
  | nil => simp
  | cons b t ih =>
    simp only [List.foldl_cons]
    rw [ih (i ^^^ (2 ^ b % 2 ^ 32)), ih (0 ^^^ (2 ^ b % 2 ^ 32))]
    simp [Nat.xor_assoc]

theorem chordBits_cons (b : ℕ) (t : List ℕ) :
    chordBits (b :: t) = (2 ^ b % 2 ^ 32) ^^^ chordBits t := by
  unfold chordBits
  simp only [List.foldl_cons]
  rw [foldl_xor_shift]
  simp

/-- For a duplicate-free chord of buttons below 32, the fold of the
button bits has exactly the chord's bits set (shared helper). -/
theorem chordBits_testBit (l : List ℕ) (hnd : l.Nodup) (hb : ∀ b ∈ l, b < 32)
    (i : ℕ) : (chordBits l).testBit i = decide (i ∈ l) := by
  induction l with
  | nil => simp [chordBits]
  | cons b t ih =>
    have hb32 : b < 32 := hb b (by simp)
    have hpow : 2 ^ b % 2 ^ 32 = 2 ^ b :=
      Nat.mod_eq_of_lt (Nat.pow_lt_pow_right one_lt_two hb32)
    have hnotmem : b ∉ t := (List.nodup_cons.mp hnd).1
    rw [chordBits_cons, hpow, Nat.testBit_xor,
      ih (List.nodup_cons.mp hnd).2 (fun x hx => hb x (List.mem_cons_of_mem _ hx))]
    by_cases hib : i = b
    · subst hib
      have : i ∉ t := hnotmem
      simp [Nat.testBit_two_pow_self, this]
    · have : ¬ b = i := fun h => hib h.symm
      simp [Nat.testBit_two_pow_of_ne this, hib]

/-- The chord check succeeds exactly when the held-buttons bitset has
the chord's bits and no others (shared helper). -/
theorem mouseButtonsPressed_iff (fc : FlyControl) (l : List ℕ)
    (hnd : l.Nodup) (hb : ∀ b ∈ l, b < 32) :
    mouseButtonsPressed fc l = true ↔
      (∀ i, fc.mouseBtnState.testBit i = decide (i ∈ l)) := by
  have hbp : mouseButtonsPressed fc l = (fc.mouseBtnState == chordBits l) := by
    unfold mouseButtonsPressed
    split
    · rename_i h
      rw [Bool.and_eq_true] at h
      obtain ⟨h0, hl⟩ := h
      have h0' : fc.mouseBtnState = 0 := by simpa using h0
      have hl' : l = [] := by simpa [List.isEmpty_iff] using hl
      subst hl'
      simp [chordBits, h0']
    · rfl
  rw [hbp]
  constructor
  · intro h i
    have he : fc.mouseBtnState = chordBits l := by simpa using h
    rw [he, chordBits_testBit l hnd hb]
  · intro h
    have : fc.mouseBtnState = chordBits l :=
      Nat.eq_of_testBit_eq fun i => by rw [h i, chordBits_testBit l hnd hb]
    simp [this]

/-- C6.  For a cursor event with deltas `(dx, dy)` and a configured
gesture `g` for movement `m` (chord duplicate-free, buttons below 32 as
GLFW's are), a dispatch `(m, mag)` happens exactly when the held set
equals the chord as a set of buttons (an empty chord matches only the
empty held set), the gesture's capture requirement equals the current
capture flag, and the gesture's motion equals the horizontal or the
vertical classification, with `mag` the corresponding absolute delta
times the movement's speed; one gesture dispatches at most two
movements per event. -/
theorem gesture_dispatch_characterization (fc : FlyControl) (dx dy : ℚ)
    (m : FlyMovement) (g : MouseGuesture) (mag : ℚ)
    (hnd : g.buttons.Nodup) (hb : ∀ b ∈ g.buttons, b < 32) :
    ((m, mag) ∈ gestureDispatches fc dx dy m g ↔
      ((∀ i, fc.mouseBtnState.testBit i = decide (i ∈ g.buttons))
        ∧ g.captured = fc.mouseIsCaptured
        ∧ ((g.motion = classifyDx dx ∧ mag = |dx| * speedOf fc m)
            ∨ (g.motion = classifyDy dy ∧ mag = |dy| * speedOf fc m))))
      ∧ (gestureDispatches fc dx dy m g).length ≤ 2
      ∧ (g.buttons = [] →
          (mouseButtonsPressed fc g.buttons = true ↔ fc.mouseBtnState = 0)) := by
  refine ⟨?_, ?_, ?_⟩
  · rw [← mouseButtonsPressed_iff fc g.buttons hnd hb]
    unfold gestureDispatches
    by_cases h1 : mouseButtonsPressed fc g.buttons = true <;>
      by_cases h2 : g.captured = fc.mouseIsCaptured <;>
        by_cases h3 : g.motion = classifyDx dx <;>
          by_cases h4 : g.motion = classifyDy dy <;>
            simp [h1, h2, h3, h4]
  · unfold gestureDispatches
    split
    · rw [List.length_append]
      have hx : (if g.motion == classifyDx dx then [(m, |dx| * speedOf fc m)]
          else []).length ≤ 1 := by split <;> simp
      have hy : (if g.motion == classifyDy dy then [(m, |dy| * speedOf fc m)]
          else []).length ≤ 1 := by split <;> simp
      omega
    · simp
  · intro h
    rw [h]
    simp only [mouseButtonsPressed, chordBits, List.foldl_nil]
    by_cases h0 : fc.mouseBtnState = 0 <;> simp [h0]

/-- The C6 witness configuration: buttons 0 and 1 held (bits 0b11), a
left+middle chord gesture for `yawRight` at speed 2, capture off. -/
def fcSix : FlyControl :=
  { fcBase with
    mouseBtnState := 3
    speeds := fun m =>
      match m with
      | FlyMovement.yawRight => some 2
      | _ => none }

def gSix : MouseGuesture := ⟨MouseMotion.mouseRight, [0, 1], false⟩

theorem gesture_dispatch_characterization_witness :
    ((FlyMovement.yawRight, (8 : ℚ))
        ∈ gestureDispatches fcSix 4 0 FlyMovement.yawRight gSix ↔
      ((∀ i, fcSix.mouseBtnState.testBit i = decide (i ∈ gSix.buttons))
        ∧ gSix.captured = fcSix.mouseIsCaptured
        ∧ ((gSix.motion = classifyDx 4
              ∧ (8 : ℚ) = |(4 : ℚ)| * speedOf fcSix FlyMovement.yawRight)
            ∨ (gSix.motion = classifyDy 0
              ∧ (8 : ℚ) = |(0 : ℚ)| * speedOf fcSix FlyMovement.yawRight))))
      ∧ (gestureDispatches fcSix 4 0 FlyMovement.yawRight gSix).length ≤ 2
      ∧ (gSix.buttons = [] →
          (mouseButtonsPressed fcSix gSix.buttons = true ↔ fcSix.mouseBtnState = 0)) :=
  gesture_dispatch_characterization fcSix 4 0 FlyMovement.yawRight gSix 8
    (by decide) (by decide)

/-! ## C1: orthonormality of the (forward, up) frame -/

/-- The frame invariant: `forward` and `up` unit length and mutually
perpendicular (exact, since the embedding's arithmetic is exact). -/
def FrameOrthonormal (fc : FlyControl) : Prop :=
  V3.normSq fc.forward = 1 ∧ V3.normSq fc.up = 1 ∧ V3.dot fc.forward fc.up = 0

/-- One Yaw, Pitch or Roll call: the bookkeeping delta together with
the cosine/sine pair of the rotation angle. -/
inductive RotCall where
  | yaw (delta c s : ℚ)
  | pitch (delta c s : ℚ)
  | roll (delta c s : ℚ)

/-- `(c, s)` really is a point of the unit circle — the image of a
finite angle. -/
def RotCall.valid : RotCall → Prop
  | RotCall.yaw _ c s => c ^ 2 + s ^ 2 = 1
  | RotCall.pitch _ c s => c ^ 2 + s ^ 2 = 1
  | RotCall.roll _ c s => c ^ 2 + s ^ 2 = 1

def applyRotCall (fc : FlyControl) : RotCall → FlyControl
  | RotCall.yaw d c s => yawStep fc d c s
  | RotCall.pitch d c s => pitchStep fc d c s
  | RotCall.roll d c s => rollStep fc d c s

def applyRotCalls (fc : FlyControl) (l : List RotCall) : FlyControl :=
  l.foldl applyRotCall fc

/-- The fields an accepted yaw writes (shared helper). -/
theorem yawStep_accepted_fields (fc : FlyControl) (d c s : ℚ)
    (hok : constraintOk fc (fc.rotation.x + d)
      FlyMovement.yawLeft FlyMovement.yawRight = true) :
    (yawStep fc d c s).forward = rotAA (whichUp fc) fc.forward c (-s)
      ∧ (yawStep fc d c s).up = fc.up
      ∧ (yawStep fc d c s).useUpWorld = fc.useUpWorld := by
  simp [yawStep, hok]

/-- The fields an accepted pitch writes (shared helper). -/
theorem pitchStep_accepted_fields (fc : FlyControl) (d c s : ℚ)
    (hok : constraintOk fc (fc.rotation.y + d)
      FlyMovement.pitchDown FlyMovement.pitchUp = true) :
    (pitchStep fc d c s).forward
        = rotAA (V3.cross fc.forward (whichUp fc)) fc.forward c s
      ∧ (pitchStep fc d c s).up
          = rotAA (V3.cross fc.forward (whichUp fc)) fc.up c s
      ∧ (pitchStep fc d c s).useUpWorld = fc.useUpWorld := by
  simp [pitchStep, hok]

/-- The fields an accepted roll writes (shared helper). -/
theorem rollStep_accepted_fields (fc : FlyControl) (d c s : ℚ)
    (hok : constraintOk fc (fc.rotation.z + d)
      FlyMovement.rollLeft FlyMovement.rollRight = true) :
    (rollStep fc d c s).forward = fc.forward
      ∧ (rollStep fc d c s).up = rotAA fc.forward fc.up c s
      ∧ (rollStep fc d c s).useUpWorld = fc.useUpWorld := by
  simp [rollStep, hok]

/-- In camera-up mode a single valid rotation call preserves the frame
invariant and the mode (shared helper for C1). -/
theorem rotCall_preserves (fc : FlyControl) (call : RotCall)
    (hmode : fc.useUpWorld = false) (hfr : FrameOrthonormal fc)
    (hv : call.valid) :
    FrameOrthonormal (applyRotCall fc call)
      ∧ (applyRotCall fc call).useUpWorld = false := by
  obtain ⟨hf, hu, hd⟩ := hfr
  have hup : whichUp fc = fc.up := by simp [whichUp, hmode]
  cases call with
  | yaw d c s =>
    have hv' : c ^ 2 + s ^ 2 = 1 := hv
    show FrameOrthonormal (yawStep fc d c s) ∧ (yawStep fc d c s).useUpWorld = false
    cases hok : constraintOk fc (fc.rotation.x + d)
        FlyMovement.yawLeft FlyMovement.yawRight with
    | false =>
      have he : yawStep fc d c s = fc := by simp [yawStep, hok]
      rw [he]
      exact ⟨⟨hf, hu, hd⟩, hmode⟩
    | true =>
      obtain ⟨hfw, hupf, hmo⟩ := yawStep_accepted_fields fc d c s hok
      have hcs' : c ^ 2 + (-s) ^ 2 = 1 := by rw [neg_sq]; exact hv'
      refine ⟨⟨?_, ?_, ?_⟩, by rw [hmo]; exact hmode⟩
      · rw [hfw, hup, rotAA_normSq fc.up fc.forward c (-s) hu hcs', hf]
      · rw [hupf, hu]
      · rw [hfw, hupf, hup, rotAA_dot_axis fc.up fc.forward c (-s) hu]
        exact hd
  | pitch d c s =>
    have hv' : c ^ 2 + s ^ 2 = 1 := hv
    show FrameOrthonormal (pitchStep fc d c s) ∧ (pitchStep fc d c s).useUpWorld = false
    cases hok : constraintOk fc (fc.rotation.y + d)
        FlyMovement.pitchDown FlyMovement.pitchUp with
    | false =>
      have he : pitchStep fc d c s = fc := by simp [pitchStep, hok]
      rw [he]
      exact ⟨⟨hf, hu, hd⟩, hmode⟩
    | true =>
      obtain ⟨hfw, hupf, hmo⟩ := pitchStep_accepted_fields fc d c s hok
      have hr : V3.normSq (V3.cross fc.forward fc.up) = 1 := by
        rw [cross_normSq, hf, hu, hd]; ring
      refine ⟨⟨?_, ?_, ?_⟩, by rw [hmo]; exact hmode⟩
      · rw [hfw, hup, rotAA_normSq (V3.cross fc.forward fc.up) fc.forward c s hr hv', hf]
      · rw [hupf, hup, rotAA_normSq (V3.cross fc.forward fc.up) fc.up c s hr hv', hu]
      · rw [hfw, hupf, hup, rotAA_dot (V3.cross fc.forward fc.up) fc.forward fc.up c s hr hv']
        exact hd
  | roll d c s =>
    have hv' : c ^ 2 + s ^ 2 = 1 := hv
    show FrameOrthonormal (rollStep fc d c s) ∧ (rollStep fc d c s).useUpWorld = false
    cases hok : constraintOk fc (fc.rotation.z + d)
        FlyMovement.rollLeft FlyMovement.rollRight with
    | false =>
      have he : rollStep fc d c s = fc := by simp [rollStep, hok]
      rw [he]
      exact ⟨⟨hf, hu, hd⟩, hmode⟩
    | true =>
      obtain ⟨hfw, hupf, hmo⟩ := rollStep_accepted_fields fc d c s hok
      refine ⟨⟨?_, ?_, ?_⟩, by rw [hmo]; exact hmode⟩
      · rw [hfw, hf]
      · rw [hupf, rotAA_normSq fc.forward fc.up c s hf hv', hu]
      · rw [hfw, hupf, V3.dot_comm, rotAA_dot_axis fc.forward fc.up c s hf, V3.dot_comm]
        exact hd

/-- In camera-up mode any sequence of valid rotation calls preserves
the frame invariant (shared helper for C1). -/
theorem rotCalls_preserve (l : List RotCall) (fc : FlyControl)
    (hmode : fc.useUpWorld = false) (hfr : FrameOrthonormal fc)
    (hall : ∀ call ∈ l, call.valid) :
    FrameOrthonormal (applyRotCalls fc l)
      ∧ (applyRotCalls fc l).useUpWorld = false := by
  induction l generalizing fc with
  | nil => exact ⟨hfr, hmode⟩
  | cons call rest ih =>
    have hstep := rotCall_preserves fc call hmode hfr
      (hall call (List.mem_cons_self call rest))
    exact ih (applyRotCall fc call) hstep.2 hstep.1
      (fun q hq => hall q (List.mem_cons_of_mem _ hq))

/-- Reorient yields an orthonormal frame whenever the three normalizer
scalars are genuine inverse norms — which is exactly when its inputs
are non-degenerate (shared helper for C1). -/
theorem reorient_orthonormal (fc : FlyControl) (target worldUp : V3) (r1 r2 r3 : ℚ)
    (h1 : r1 ^ 2 * V3.normSq (target - fc.position) = 1)
    (h3 : r3 ^ 2 * V3.normSq (V3.cross (reoRight fc target worldUp r1 r2)
      (reoFwd fc target r1)) = 1) :
    FrameOrthonormal (reorient fc target worldUp r1 r2 r3) := by
  refine ⟨?_, ?_, ?_⟩
  · show V3.normSq (reoFwd fc target r1) = 1
    rw [reoFwd, normSq_smul]
    exact h1
  · show V3.normSq (reoUp fc target worldUp r1 r2 r3) = 1
    rw [reoUp, normSq_smul]
    exact h3
  · show V3.dot (reoFwd fc target r1) (reoUp fc target worldUp r1 r2 r3) = 0
    rw [reoUp, dot_smul_right, dot_cross_right_self, mul_zero]

/-- C1, as amended.  In camera-up mode (`useUpWorld = false`), starting
from a frame constructed by `Reorient` with non-degenerate inputs
(witnessed by genuine inverse-norm scalars), every sequence of Yaw,
Pitch and Roll calls — whether each is accepted or rejected by the
configured constraints — keeps `forward` and `up` exactly unit length
and mutually perpendicular.  (In world-up mode the invariant can fail;
see the counterexample.) -/
theorem cameraUp_frame_stays_orthonormal (fc : FlyControl) (target worldUp : V3)
    (r1 r2 r3 : ℚ) (l : List RotCall)
    (hmode : fc.useUpWorld = false)
    (h1 : r1 ^ 2 * V3.normSq (target - fc.position) = 1)
    (h3 : r3 ^ 2 * V3.normSq (V3.cross (reoRight fc target worldUp r1 r2)
      (reoFwd fc target r1)) = 1)
    (hall : ∀ call ∈ l, call.valid) :
    FrameOrthonormal (applyRotCalls (reorient fc target worldUp r1 r2 r3) l) := by
  have hfr := reorient_orthonormal fc target worldUp r1 r2 r3 h1 h3
  have hmode' : (reorient fc target worldUp r1 r2 r3).useUpWorld = false := hmode
  exact (rotCalls_preserve l _ hmode' hfr hall).1

/-- The camera-up twin of `fcBase`. -/
def fcCam : FlyControl := { fcBase with useUpWorld := false }

theorem cameraUp_frame_stays_orthonormal_witness :
    FrameOrthonormal (applyRotCalls (reorient fcCam ⟨0, 0, -1⟩ ⟨0, 1, 0⟩ 1 1 1)
      [RotCall.yaw 1 (3 / 5) (4 / 5), RotCall.pitch 1 (4 / 5) (3 / 5)]) :=
  cameraUp_frame_stays_orthonormal fcCam ⟨0, 0, -1⟩ ⟨0, 1, 0⟩ 1 1 1
    [RotCall.yaw 1 (3 / 5) (4 / 5), RotCall.pitch 1 (4 / 5) (3 / 5)]
    rfl
    (by norm_num [fcCam, fcBase, V3.normSq_def, V3.dot_def])
    (by norm_num [reoRight, reoFwd, fcCam, fcBase, V3.normSq_def, V3.dot_def, V3.cross])
    (by intro call hc; fin_cases hc <;> norm_num [RotCall.valid])

/-- The end state of the C1 counterexample run: world-up mode, frame
built by Reorient from the canonical non-degenerate inputs (all three
norms are already 1, so the genuine normalizer scalars are exactly 1),
then a pitch by the angle with (cos, sin) = (4/5, 3/5) followed by a
yaw by the quarter turn (cos, sin) = (0, 1); with no constraints
configured, both calls are accepted. -/
def fcC1end : FlyControl :=
  applyRotCalls (reorient fcBase ⟨0, 0, -1⟩ ⟨0, 1, 0⟩ 1 1 1)
    [RotCall.pitch 1 (4 / 5) (3 / 5), RotCall.yaw 1 0 1]

/-- C1, counterexample.  In world-up mode (`fcBase.useUpWorld = true`)
the claimed invariant fails: after an accepted pitch and an accepted
yaw — both with genuine cosine/sine pairs, from a Reorient-built frame
— the dot product of `forward` and `up` is 12/25, far outside any
floating-point tolerance (the committed bookkeeping `rotation = (1,1,0)`
shows both calls were accepted, not skipped). -/
theorem worldUp_frame_orthogonality_fails :
    RotCall.valid (RotCall.pitch 1 (4 / 5) (3 / 5))
      ∧ RotCall.valid (RotCall.yaw 1 0 1)
      ∧ fcBase.useUpWorld = true
      ∧ fcC1end.rotation = ⟨1, 1, 0⟩
      ∧ V3.dot fcC1end.forward fcC1end.up = 12 / 25
      ∧ ¬ V3.dot fcC1end.forward fcC1end.up = 0 := by
  refine ⟨by norm_num [RotCall.valid], by norm_num [RotCall.valid], rfl, ?_, ?_, ?_⟩ <;>
    norm_num [fcC1end, applyRotCalls, applyRotCall, reorient, reoFwd, reoRight, reoUp,
      pitchStep, yawStep, whichUp, rotAA, constraintOk, fcBase, camB,
      V3.dot_def, V3.cross, Cam.lookAt]
